import Mathlib

/-!
Shallow embedding of the MT5 price-alert program (mt5_aituber_improved.py,
first program in the file; the later copies are near-duplicate variants of
the same logic).  Prices, deltas and thresholds are modelled by exact
rationals; the Python float arithmetic is idealised to field arithmetic
on the rationals.  Python dicts are modelled by association lists, the
WebSocket subscriber sets of the broker by lists of client handles, and
the configuration file on disk by an optional record of optional fields.
-/

/-- One entry of `Config.watch_symbols`: decimal precision class and
Japanese display name, as in the dataclass default dictionary. -/
structure SymCfg where
  digits : ℤ
  jp_name : String
deriving DecidableEq, Repr

/-- The mutable runtime configuration (the `Config` dataclass).  The
host/port fields belong to the excluded bootstrap surface and are not
part of the persisted or mutated configuration, so they are omitted. -/
structure Config where
  watch_symbols : List (String × SymCfg)
  update_interval : ℚ
  small_threshold : ℚ
  medium_threshold : ℚ
  large_threshold : ℚ
  msg_small : String
  msg_medium : String
  msg_large : String
deriving DecidableEq, Repr

/-- The dataclass defaults of `Config`. -/
def defaultConfig : Config :=
  { watch_symbols :=
      [("USDJPY", ⟨3, "どるえん"⟩),
       ("EURUSD", ⟨5, "ユーロドル"⟩),
       ("GBPUSD", ⟨5, "ポンドル"⟩),
       ("EURJPY", ⟨3, "ユーロえん"⟩),
       ("GBPJPY", ⟨3, "ポンドえん"⟩)],
    update_interval := 1,
    small_threshold := 5,
    medium_threshold := 16,
    large_threshold := 30,
    msg_small := "📊 すこしのうごきがありましたです",
    msg_medium := "⚠️ ちゅうくらいのうごきがありましたです",
    msg_large := "🚨 えええっ～びっくりです。大変です。" }

/-- Python dict read `m[k]` / `k in m`, on the association-list model. -/
def dictGet {α : Type} : List (String × α) → String → Option α
  | [], _ => none
  | (k, v) :: t, s => if s = k then some v else dictGet t s

/-- Per-symbol tracker entry of `PriceMonitor.symbol_data`. -/
structure SymData where
  base_price : Option ℚ
  last_price : Option ℚ
  digits : ℤ
  jp_name : String
deriving DecidableEq, Repr

/-- The `symbol_data` dictionary of the monitor. -/
abbrev SymTab := List (String × SymData)

/-- `PriceMonitor.__init__`: one entry per watched symbol, with both
price fields unset. -/
def monitor_init (cfg : Config) : SymTab :=
  cfg.watch_symbols.map (fun p => (p.1, ⟨none, none, p.2.digits, p.2.jp_name⟩))

/-- Python dict write `m[k] = v` on the association-list model (every
entry carrying the key is replaced; tables built by `monitor_init`
carry each key once). -/
def setSym : SymTab → String → SymData → SymTab
  | [], _, _ => []
  | (k, v) :: t, s, d =>
    if k = s then (k, d) :: setSym t s d else (k, v) :: setSym t s d

/-- The pip unit computed inside `PriceMonitor.calculate_pips`:
`0.1 ** (digits - 1)` when digits is 3 or 5, else `0.1 ** (digits - 2)`. -/
def pip_value (digits : ℤ) : ℚ :=
  if digits = 3 ∨ digits = 5 then (1 / 10 : ℚ) ^ (digits - 1)
  else (1 / 10 : ℚ) ^ (digits - 2)

/-- `PriceMonitor.calculate_pips`: looks up the digits of the symbol in
`symbol_data` (a missing symbol raises KeyError in Python, modelled by
`none`) and divides the absolute price change by the pip unit. -/
def calculate_pips (st : SymTab) (symbol : String) (price_change : ℚ) : Option ℚ :=
  match dictGet st symbol with
  | none => none
  | some d => some (|price_change| / pip_value d.digits)

/-- Alert severity tier (identified in the source by which message
template the if/elif chain selects). -/
inductive Tier
  | Small
  | Medium
  | Large
deriving DecidableEq, Repr

/-- Direction of a movement, the 上昇/下降 word of the alert. -/
inductive Direction
  | Up
  | Down
deriving DecidableEq, Repr

/-- The if/elif chain of `update_price` that selects `level_msg` and
`emotion`, from the largest threshold down, every comparison inclusive. -/
def level_decision (cfg : Config) (price_change pips_change : ℚ) :
    Option (Tier × String × String) :=
  if pips_change ≥ cfg.large_threshold then
    some (Tier.Large, cfg.msg_large, "surprised")
  else if pips_change ≥ cfg.medium_threshold then
    some (Tier.Medium, cfg.msg_medium, if price_change > 0 then "happy" else "sad")
  else if pips_change ≥ cfg.small_threshold then
    some (Tier.Small, cfg.msg_small, if price_change > 0 then "happy" else "sad")
  else none

/-- The alert broadcast to the AItuber clients when a tier fires. -/
structure TierEvent where
  symbol : String
  jp_name : String
  tier : Tier
  level_msg : String
  emotion : String
  pips : ℚ
  direction : Direction
  price : ℚ
deriving DecidableEq, Repr

/-- The `price_update` object broadcast to the dashboard pool; note the
source sends the pre-reset `base_price` local variable. -/
structure DashboardMsg where
  symbol : String
  jp_name : String
  price : ℚ
  base_price : ℚ
  pips_change : ℚ
deriving DecidableEq, Repr

/-- What one `update_price` call produces: the new `symbol_data`, the
alert broadcast to the client pool (if a tier fired) and the dashboard
broadcast. -/
structure UpdateResult where
  state : SymTab
  event : Option TierEvent
  dashboard : Option DashboardMsg
deriving DecidableEq, Repr

/-- `PriceMonitor.update_price`.  Unknown symbols return at once; a first
observation records the price in both fields and returns before the
dashboard broadcast; otherwise the pip change against `base_price` is
computed (via `calculate_pips`, inlined here after the lookup), the
level chain runs, a firing tier broadcasts the alert and resets
`base_price`, and `last_price` is always set to the observed price. -/
def update_price (cfg : Config) (st : SymTab) (symbol : String) (price : ℚ) :
    UpdateResult :=
  match dictGet cfg.watch_symbols symbol with
  | none => ⟨st, none, none⟩
  | some _ =>
    match dictGet st symbol with
    | none => ⟨st, none, none⟩
    | some d =>
      match d.base_price with
      | none =>
        ⟨setSym st symbol { d with base_price := some price, last_price := some price },
         none, none⟩
      | some base_price =>
        let price_change := price - base_price
        let pips_change := |price_change| / pip_value d.digits
        match level_decision cfg price_change pips_change with
        | some (t, msg, emo) =>
          ⟨setSym st symbol { d with base_price := some price, last_price := some price },
           some ⟨symbol, d.jp_name, t, msg, emo, pips_change,
                 if price_change > 0 then Direction.Up else Direction.Down, price⟩,
           some ⟨symbol, d.jp_name, price, base_price, pips_change⟩⟩
        | none =>
          ⟨setSym st symbol { d with last_price := some price }, none,
           some ⟨symbol, d.jp_name, price, base_price, pips_change⟩⟩

/-- A sequence of observations of one symbol, threading the tracker
state (the monitoring loop restricted to one symbol). -/
def observe_seq (cfg : Config) (st : SymTab) (symbol : String) : List ℚ → SymTab
  | [] => st
  | p :: ps => observe_seq cfg (update_price cfg st symbol p).state symbol ps

/-- A run of the monitoring loop: a list of (symbol, price) ticks fed
through `update_price` in order. -/
def observe_run (cfg : Config) (st : SymTab) : List (String × ℚ) → SymTab
  | [] => st
  | (s, p) :: rest => observe_run cfg (update_price cfg st s p).state rest

/-- A connected WebSocket subscriber: an identifier and whether its
channel is already closed (a send to a closed channel raises
ConnectionClosed). -/
structure Client where
  cid : ℕ
  closed : Bool
deriving DecidableEq, Repr

/-- The send loop of `MessageBroker.broadcast`: walks the pool in order,
collecting the clients that received the message and the dead set of
clients whose send raised ConnectionClosed. -/
def sweep : List Client → List Client × List Client
  | [] => ([], [])
  | c :: t =>
    let r := sweep t
    if c.closed then (r.1, c :: r.2) else (c :: r.1, r.2)

/-- `set.discard` of one client from a pool (pools hold no duplicates). -/
def removeClient : List Client → Client → List Client
  | [], _ => []
  | x :: t, c => if x = c then t else x :: removeClient t c

/-- Result of one `MessageBroker.broadcast` call: the pool afterwards,
the clients the serialized message was delivered to (in sweep order),
and the collected dead set. -/
structure BroadcastResult where
  pool : List Client
  sent : List Client
  dead : List Client
deriving DecidableEq, Repr

/-- `MessageBroker.broadcast`: early return on an empty pool; otherwise
the message is serialized once, the whole pool is swept, and only after
the sweep is every dead client discarded from the pool. -/
def broadcast (clients : List Client) (message_json : String) : BroadcastResult :=
  if clients.isEmpty then ⟨clients, [], []⟩
  else
    let r := sweep clients
    ⟨r.2.foldl removeClient clients, r.1, r.2⟩

/-- A JSON scalar arriving in an `update_config` request for one of the
numeric configuration fields. -/
inductive JVal
  | num (q : ℚ)
  | str (s : String)
deriving DecidableEq, Repr

/-- Digit run accumulator for `parseDecimal`. -/
def parseDigitsAux : List Char → ℕ → Option ℕ
  | [], acc => some acc
  | c :: cs, acc =>
    if c.isDigit then parseDigitsAux cs (acc * 10 + (c.toNat - 48)) else none

/-- Model of the Python builtin `float` applied to a string, restricted
to plain decimal literals (optional sign, digits, optional fractional
part): returns `none` exactly when `float` raises ValueError on such
inputs, e.g. on "abc". -/
def parseDecimal (s : String) : Option ℚ :=
  let cs := s.toList
  let signed : ℚ × List Char :=
    match cs with
    | '-' :: rest => (-1, rest)
    | '+' :: rest => (1, rest)
    | _ => (1, cs)
  let body := signed.2
  let intPart := body.takeWhile Char.isDigit
  let rest := body.dropWhile Char.isDigit
  match rest with
  | [] =>
    if intPart.isEmpty then none
    else (parseDigitsAux intPart 0).map (fun n => signed.1 * n)
  | '.' :: fracPart =>
    if intPart.isEmpty ∧ fracPart.isEmpty then none
    else if fracPart.all Char.isDigit then
      (parseDigitsAux intPart 0).bind (fun i =>
        (parseDigitsAux fracPart 0).map (fun f =>
          signed.1 * ((i : ℚ) + (f : ℚ) / (10 : ℚ) ^ fracPart.length)))
    else none
  | _ => none

/-- Python `float(v)` on a JSON value: numbers convert, strings go
through the decimal parser. -/
def pyFloat : JVal → Option ℚ
  | JVal.num q => some q
  | JVal.str s => parseDecimal s

/-- The sparse `config` object of an `update_config` request; numeric
fields arrive as raw JSON values that still need the `float` coercion. -/
structure ConfigUpdateMsg where
  update_interval : Option JVal
  small_threshold : Option JVal
  medium_threshold : Option JVal
  large_threshold : Option JVal
  msg_small : Option String
  msg_medium : Option String
  msg_large : Option String
deriving DecidableEq, Repr

/-- One `if field in new_config: config.field = float(...)` step of
`handle_config_update`; a failing `float` raises ValueError, carrying
the configuration as mutated so far. -/
def applyNumField (v : Option JVal) (setF : Config → ℚ → Config) (cfg : Config) :
    Except Config Config :=
  match v with
  | none => Except.ok cfg
  | some jv =>
    match pyFloat jv with
    | some q => Except.ok (setF cfg q)
    | none => Except.error cfg

/-- The field-mutation body of `handle_config_update`, in source order;
message fields are plain assignments and cannot raise. -/
def apply_config_fields (u : ConfigUpdateMsg) (cfg : Config) : Except Config Config := do
  let cfg ← applyNumField u.update_interval (fun c q => { c with update_interval := q }) cfg
  let cfg ← applyNumField u.small_threshold (fun c q => { c with small_threshold := q }) cfg
  let cfg ← applyNumField u.medium_threshold (fun c q => { c with medium_threshold := q }) cfg
  let cfg ← applyNumField u.large_threshold (fun c q => { c with large_threshold := q }) cfg
  let cfg := match u.msg_small with | some s => { cfg with msg_small := s } | none => cfg
  let cfg := match u.msg_medium with | some s => { cfg with msg_medium := s } | none => cfg
  let cfg := match u.msg_large with | some s => { cfg with msg_large := s } | none => cfg
  Except.ok cfg

/-- Content of mt5_config.json: a JSON object in which any of the saved
fields may be absent. -/
structure ConfigFile where
  update_interval : Option ℚ
  small_threshold : Option ℚ
  medium_threshold : Option ℚ
  large_threshold : Option ℚ
  msg_small : Option String
  msg_medium : Option String
  msg_large : Option String
  watch_symbols : Option (List (String × SymCfg))
deriving DecidableEq, Repr

/-- `save_config_to_file`: writes every configuration field. -/
def save_config_to_file (cfg : Config) : ConfigFile :=
  ⟨some cfg.update_interval, some cfg.small_threshold, some cfg.medium_threshold,
   some cfg.large_threshold, some cfg.msg_small, some cfg.msg_medium,
   some cfg.msg_large, some cfg.watch_symbols⟩

/-- `load_config_from_file`: a missing file keeps the current (default)
configuration; otherwise every scalar field falls back to the current
value when absent, and `watch_symbols` is merged per already-watched
symbol (entries in the file for unknown symbols are ignored, and a
present entry replaces the descriptor, the file always carrying both
descriptor fields). -/
def load_config_from_file (file : Option ConfigFile) (cfg : Config) : Config :=
  match file with
  | none => cfg
  | some data =>
    { watch_symbols :=
        match data.watch_symbols with
        | none => cfg.watch_symbols
        | some ws => cfg.watch_symbols.map (fun p => (p.1, (dictGet ws p.1).getD p.2)),
      update_interval := data.update_interval.getD cfg.update_interval,
      small_threshold := data.small_threshold.getD cfg.small_threshold,
      medium_threshold := data.medium_threshold.getD cfg.medium_threshold,
      large_threshold := data.large_threshold.getD cfg.large_threshold,
      msg_small := data.msg_small.getD cfg.msg_small,
      msg_medium := data.msg_medium.getD cfg.msg_medium,
      msg_large := data.msg_large.getD cfg.msg_large }

/-- `handle_config_update` as called by the dashboard handler: mutate
the fields in order, and only when no step raised, persist the full
configuration; a raise leaves the file untouched and propagates. -/
def handle_config_update (u : ConfigUpdateMsg) (cfg : Config) (file : Option ConfigFile) :
    Except (Config × Option ConfigFile) (Config × Option ConfigFile) :=
  match apply_config_fields u cfg with
  | Except.ok c => Except.ok (c, some (save_config_to_file c))
  | Except.error c => Except.error (c, file)

/-- The reply the dashboard handler sends after a config update. -/
structure WsResponse where
  type : String
  success : Bool
deriving DecidableEq, Repr

/-- Outcome of the dashboard handler processing one `update_config`
message: resulting configuration and file, the reply sent to that
sender (if any), and whether an uncaught exception escaped the
message loop (the loop catches only json.JSONDecodeError). -/
structure DashboardStep where
  cfg : Config
  file : Option ConfigFile
  response : Option WsResponse
  crashed : Bool
deriving DecidableEq, Repr

/-- The `update_config` branch of `dashboard_websocket_handler`: on
success it replies `config_updated / success true`; a ValueError from
`handle_config_update` is not a json.JSONDecodeError, so no reply is
sent and the exception escapes the handler loop. -/
def dashboard_update_config (u : ConfigUpdateMsg) (cfg : Config) (file : Option ConfigFile) :
    DashboardStep :=
  match handle_config_update u cfg file with
  | Except.ok (c, f) => ⟨c, f, some ⟨"config_updated", true⟩, false⟩
  | Except.error (c, f) => ⟨c, f, none, true⟩

/-! ### Helper lemmas about the dictionary model -/

theorem dictGet_setSym_self (st : SymTab) (symbol : String) (d0 d : SymData)
    (h : dictGet st symbol = some d0) :
    dictGet (setSym st symbol d) symbol = some d := by
  induction st with
  | nil => simp [dictGet] at h
  | cons p t ih =>
    obtain ⟨k, v⟩ := p
    by_cases hk : k = symbol
    · subst hk
      simp [setSym, dictGet]
    · have hk' : ¬symbol = k := fun hh => hk hh.symm
      simp only [dictGet, if_neg hk'] at h
      simp only [setSym, if_neg hk, dictGet, if_neg hk']
      exact ih h

theorem dictGet_setSym_ne (st : SymTab) (symbol s : String) (d : SymData)
    (h : s ≠ symbol) :
    dictGet (setSym st symbol d) s = dictGet st s := by
  induction st with
  | nil => rfl
  | cons p t ih =>
    obtain ⟨k, v⟩ := p
    by_cases hk : k = symbol
    · subst hk
      have : ¬s = k := h
      simp only [setSym, if_pos rfl, dictGet, if_neg this]
      exact ih
    · simp only [setSym, if_neg hk, dictGet]
      by_cases hs : s = k
      · simp [hs]
      · simp only [if_neg hs]
        exact ih

theorem mem_setSym (st : SymTab) (symbol : String) (d : SymData) (p : String × SymData)
    (hp : p ∈ setSym st symbol d) :
    p.2 = d ∨ p ∈ st := by
  induction st with
  | nil => simp [setSym] at hp
  | cons q t ih =>
    obtain ⟨k, v⟩ := q
    by_cases hk : k = symbol
    · subst hk
      simp only [setSym, if_pos rfl] at hp
      cases hp with
      | head => exact Or.inl rfl
      | tail _ h =>
        cases ih h with
        | inl h2 => exact Or.inl h2
        | inr h2 => exact Or.inr (List.mem_cons_of_mem _ h2)
    · simp only [setSym, if_neg hk] at hp
      cases hp with
      | head => exact Or.inr (List.mem_cons_self _ _)
      | tail _ h =>
        cases ih h with
        | inl h2 => exact Or.inl h2
        | inr h2 => exact Or.inr (List.mem_cons_of_mem _ h2)

/-! ### Equation lemmas for `update_price` -/

theorem update_price_unwatched (cfg : Config) (st : SymTab) (symbol : String) (price : ℚ)
    (hw : dictGet cfg.watch_symbols symbol = none) :
    update_price cfg st symbol price = ⟨st, none, none⟩ := by
  simp [update_price, hw]

theorem update_price_first (cfg : Config) (st : SymTab) (symbol : String) (d : SymData)
    (price : ℚ) (w : SymCfg)
    (hw : dictGet cfg.watch_symbols symbol = some w)
    (hd : dictGet st symbol = some d)
    (hb : d.base_price = none) :
    update_price cfg st symbol price =
      ⟨setSym st symbol { d with base_price := some price, last_price := some price },
       none, none⟩ := by
  simp [update_price, hw, hd, hb]

theorem update_price_sub (cfg : Config) (st : SymTab) (symbol : String) (d : SymData)
    (b price : ℚ) (w : SymCfg)
    (hw : dictGet cfg.watch_symbols symbol = some w)
    (hd : dictGet st symbol = some d)
    (hb : d.base_price = some b) :
    update_price cfg st symbol price =
      match level_decision cfg (price - b) (|price - b| / pip_value d.digits) with
      | some (t, msg, emo) =>
        ⟨setSym st symbol { d with base_price := some price, last_price := some price },
         some ⟨symbol, d.jp_name, t, msg, emo, |price - b| / pip_value d.digits,
               if price - b > 0 then Direction.Up else Direction.Down, price⟩,
         some ⟨symbol, d.jp_name, price, b, |price - b| / pip_value d.digits⟩⟩
      | none =>
        ⟨setSym st symbol { d with last_price := some price }, none,
         some ⟨symbol, d.jp_name, price, b, |price - b| / pip_value d.digits⟩⟩ := by
  simp only [update_price, hw, hd, hb]

/-! ### Further helpers: positivity of the pip unit, tier ordering -/

theorem pip_value_pos (digits : ℤ) : 0 < pip_value digits := by
  unfold pip_value
  split_ifs <;> positivity

/-- Ordering rank of a tier outcome: none < Small < Medium < Large. -/
def tier_rank : Option Tier → ℕ
  | none => 0
  | some Tier.Small => 1
  | some Tier.Medium => 2
  | some Tier.Large => 3

theorem level_decision_rank_mono (cfg : Config) (pc1 pc2 p q : ℚ) (h : p ≤ q) :
    tier_rank ((level_decision cfg pc1 p).map (fun x => x.1)) ≤
      tier_rank ((level_decision cfg pc2 q).map (fun x => x.1)) := by
  unfold level_decision
  split_ifs <;> simp [tier_rank] <;> linarith

theorem update_price_event_tier (cfg : Config) (st : SymTab) (symbol : String)
    (d : SymData) (b price : ℚ) (w : SymCfg)
    (hw : dictGet cfg.watch_symbols symbol = some w)
    (hd : dictGet st symbol = some d)
    (hb : d.base_price = some b) :
    (update_price cfg st symbol price).event.map (fun e => e.tier) =
      (level_decision cfg (price - b) (|price - b| / pip_value d.digits)).map
        (fun x => x.1) := by
  rw [update_price_sub cfg st symbol d b price w hw hd hb]
  cases h : level_decision cfg (price - b) (|price - b| / pip_value d.digits) with
  | none => simp
  | some v =>
    obtain ⟨t, msg, emo⟩ := v
    simp

/-! ### Concrete data shared by the witnesses -/

/-- A tracker entry after a first observation of USDJPY at 150. -/
def dW : SymData := ⟨some 150, some 150, 3, "どるえん"⟩

/-- A one-symbol tracker table in that state. -/
def stW : SymTab := [("USDJPY", dW)]

/-! ### C9 -/

/-- C9: for every symbol not present in the active configuration watch
list, `update_price` is a no-op: no event, no dashboard broadcast, no
error, and every tracker entry is left unchanged. -/
theorem unknown_symbol_noop (cfg : Config) (st : SymTab) (symbol : String) (price : ℚ)
    (hw : dictGet cfg.watch_symbols symbol = none) :
    update_price cfg st symbol price = ⟨st, none, none⟩ :=
  update_price_unwatched cfg st symbol price hw

theorem unknown_symbol_noop_witness :
    update_price defaultConfig stW "XAUUSD" 2400 = ⟨stW, none, none⟩ :=
  unknown_symbol_noop defaultConfig stW "XAUUSD" 2400 (by decide)

/-! ### C8 -/

/-- C8: the first observed price of a known symbol whose tracker has no
baseline yet sets both `base_price` and `last_price` to that price and
produces no tier event (and no broadcast at all). -/
theorem first_observation_sets_state (cfg : Config) (st : SymTab) (symbol : String)
    (d : SymData) (price : ℚ) (w : SymCfg)
    (hw : dictGet cfg.watch_symbols symbol = some w)
    (hd : dictGet st symbol = some d)
    (hb : d.base_price = none) :
    dictGet (update_price cfg st symbol price).state symbol
        = some { d with base_price := some price, last_price := some price } ∧
    (update_price cfg st symbol price).event = none ∧
    (update_price cfg st symbol price).dashboard = none := by
  rw [update_price_first cfg st symbol d price w hw hd hb]
  exact ⟨dictGet_setSym_self st symbol d _ hd, rfl, rfl⟩

theorem first_observation_sets_state_witness :
    dictGet (update_price defaultConfig (monitor_init defaultConfig) "USDJPY" 150).state
        "USDJPY" = some ⟨some 150, some 150, 3, "どるえん"⟩ ∧
    (update_price defaultConfig (monitor_init defaultConfig) "USDJPY" 150).event = none ∧
    (update_price defaultConfig (monitor_init defaultConfig) "USDJPY" 150).dashboard
        = none :=
  first_observation_sets_state defaultConfig (monitor_init defaultConfig) "USDJPY"
    ⟨none, none, 3, "どるえん"⟩ 150 ⟨3, "どるえん"⟩ (by decide) (by decide) rfl

/-! ### C2 -/

/-- C2: for every tracked symbol, `calculate_pips` divides the absolute
price change by a pip unit determined solely by the digits field,
namely 10 ^ -(digits - 1) when digits is 3 or 5 and 10 ^ -(digits - 2)
otherwise; consequently it is invariant under the sign of the delta. -/
theorem calculate_pips_spec (st : SymTab) (symbol : String) (d : SymData) (x : ℚ)
    (hd : dictGet st symbol = some d) :
    calculate_pips st symbol x =
        some (|x| / (if d.digits = 3 ∨ d.digits = 5 then (10 : ℚ) ^ (-(d.digits - 1))
                     else (10 : ℚ) ^ (-(d.digits - 2)))) ∧
    calculate_pips st symbol x = calculate_pips st symbol (-x) := by
  have hpv : ∀ k : ℤ, (1 / 10 : ℚ) ^ k = (10 : ℚ) ^ (-k) := by
    intro k
    rw [one_div, inv_zpow, ← zpow_neg]
  constructor
  · simp only [calculate_pips, hd, pip_value]
    by_cases h : d.digits = 3 ∨ d.digits = 5
    · simp [h, hpv]
    · simp [h, hpv]
  · simp [calculate_pips, hd, abs_neg]

theorem calculate_pips_spec_witness :
    calculate_pips stW "USDJPY" (3 / 200) = calculate_pips stW "USDJPY" (-(3 / 200)) :=
  (calculate_pips_spec stW "USDJPY" dW (3 / 200) (by decide)).2

/-! ### C1 -/

/-- C1: for every observation of a known symbol after the first, with
delta = price - baseline and pips = |delta| / pipUnit, the tier of the
emitted event is decided from the largest threshold down with inclusive
comparisons, first match winning (Large, then Medium, then Small, else
no event), and the direction is Up exactly when delta > 0 and Down
otherwise. -/
theorem update_price_tier_decision (cfg : Config) (st : SymTab) (symbol : String)
    (d : SymData) (b price : ℚ) (w : SymCfg)
    (hw : dictGet cfg.watch_symbols symbol = some w)
    (hd : dictGet st symbol = some d)
    (hb : d.base_price = some b) :
    (update_price cfg st symbol price).event.map (fun e => (e.tier, e.direction)) =
      (if |price - b| / pip_value d.digits ≥ cfg.large_threshold then
         some (Tier.Large, if price - b > 0 then Direction.Up else Direction.Down)
       else if |price - b| / pip_value d.digits ≥ cfg.medium_threshold then
         some (Tier.Medium, if price - b > 0 then Direction.Up else Direction.Down)
       else if |price - b| / pip_value d.digits ≥ cfg.small_threshold then
         some (Tier.Small, if price - b > 0 then Direction.Up else Direction.Down)
       else none) := by
  rw [update_price_sub cfg st symbol d b price w hw hd hb]
  unfold level_decision
  split_ifs <;> rfl

theorem update_price_tier_decision_witness :
    (update_price defaultConfig stW "USDJPY" (7503 / 50)).event.map
        (fun e => (e.tier, e.direction)) = some (Tier.Small, Direction.Up) := by
  have h := update_price_tier_decision defaultConfig stW "USDJPY" dW 150 (7503 / 50)
    ⟨3, "どるえん"⟩ (by decide) (by decide) rfl
  rw [h]
  have habs : |(3 : ℚ) / 50| = 3 / 50 := abs_of_pos (by norm_num)
  norm_num [pip_value, dW, defaultConfig, habs]

/-! ### C7 -/

/-- C7: for any fixed configuration, also one whose thresholds are out
of order, the tier assigned by the largest-first decision is monotone in
pip magnitude: against the same baseline, a larger absolute delta never
receives a strictly lower tier (none < Small < Medium < Large). -/
theorem tier_monotone_in_abs_delta (cfg : Config) (st : SymTab) (symbol : String)
    (d : SymData) (b p1 p2 : ℚ) (w : SymCfg)
    (hw : dictGet cfg.watch_symbols symbol = some w)
    (hd : dictGet st symbol = some d)
    (hb : d.base_price = some b)
    (hle : |p1 - b| ≤ |p2 - b|) :
    tier_rank ((update_price cfg st symbol p1).event.map (fun e => e.tier)) ≤
      tier_rank ((update_price cfg st symbol p2).event.map (fun e => e.tier)) := by
  have hpv := pip_value_pos d.digits
  have hpips : |p1 - b| / pip_value d.digits ≤ |p2 - b| / pip_value d.digits := by
    gcongr
  rw [update_price_event_tier cfg st symbol d b p1 w hw hd hb,
      update_price_event_tier cfg st symbol d b p2 w hw hd hb]
  exact level_decision_rank_mono cfg (p1 - b) (p2 - b) _ _ hpips

theorem tier_monotone_in_abs_delta_witness :
    tier_rank ((update_price defaultConfig stW "USDJPY" (15003 / 100)).event.map
        (fun e => e.tier)) ≤
      tier_rank ((update_price defaultConfig stW "USDJPY" (7503 / 50)).event.map
        (fun e => e.tier)) :=
  tier_monotone_in_abs_delta defaultConfig stW "USDJPY" dW 150 (15003 / 100) (7503 / 50)
    ⟨3, "どるえん"⟩ (by decide) (by decide) rfl
    (by
      rw [abs_of_pos (show (0 : ℚ) < 15003 / 100 - 150 by norm_num),
          abs_of_pos (show (0 : ℚ) < 7503 / 50 - 150 by norm_num)]
      norm_num)

/-! ### Fire / no-fire equation lemmas -/

theorem update_price_no_fire (cfg : Config) (st : SymTab) (symbol : String)
    (d : SymData) (b price : ℚ) (w : SymCfg)
    (hw : dictGet cfg.watch_symbols symbol = some w)
    (hd : dictGet st symbol = some d)
    (hb : d.base_price = some b)
    (hnf : level_decision cfg (price - b) (|price - b| / pip_value d.digits) = none) :
    update_price cfg st symbol price =
      ⟨setSym st symbol { d with last_price := some price }, none,
       some ⟨symbol, d.jp_name, price, b, |price - b| / pip_value d.digits⟩⟩ := by
  rw [update_price_sub cfg st symbol d b price w hw hd hb, hnf]

theorem update_price_fire (cfg : Config) (st : SymTab) (symbol : String)
    (d : SymData) (b price : ℚ) (w : SymCfg) (t : Tier) (msg emo : String)
    (hw : dictGet cfg.watch_symbols symbol = some w)
    (hd : dictGet st symbol = some d)
    (hb : d.base_price = some b)
    (hf : level_decision cfg (price - b) (|price - b| / pip_value d.digits)
        = some (t, msg, emo)) :
    update_price cfg st symbol price =
      ⟨setSym st symbol { d with base_price := some price, last_price := some price },
       some ⟨symbol, d.jp_name, t, msg, emo, |price - b| / pip_value d.digits,
             if price - b > 0 then Direction.Up else Direction.Down, price⟩,
       some ⟨symbol, d.jp_name, price, b, |price - b| / pip_value d.digits⟩⟩ := by
  rw [update_price_sub cfg st symbol d b price w hw hd hb, hf]

theorem level_decision_below_small (cfg : Config) (pc pips : ℚ)
    (h2 : cfg.small_threshold ≤ cfg.medium_threshold)
    (h3 : cfg.small_threshold ≤ cfg.large_threshold)
    (hp : pips < cfg.small_threshold) :
    level_decision cfg pc pips = none := by
  unfold level_decision
  have hL : ¬(pips ≥ cfg.large_threshold) := by linarith
  have hM : ¬(pips ≥ cfg.medium_threshold) := by linarith
  have hS : ¬(pips ≥ cfg.small_threshold) := by linarith
  simp [hL, hM, hS]

theorem observe_seq_below_small (cfg : Config) (symbol : String) (b : ℚ) (dg : ℤ)
    (w : SymCfg)
    (hw : dictGet cfg.watch_symbols symbol = some w)
    (h2 : cfg.small_threshold ≤ cfg.medium_threshold)
    (h3 : cfg.small_threshold ≤ cfg.large_threshold) :
    ∀ (ps : List ℚ) (st : SymTab) (d : SymData),
      dictGet st symbol = some d → d.base_price = some b → d.digits = dg →
      (∀ p ∈ ps, |p - b| / pip_value dg < cfg.small_threshold) →
      ∃ d', dictGet (observe_seq cfg st symbol ps) symbol = some d' ∧
        d'.base_price = some b ∧ d'.digits = dg := by
  intro ps
  induction ps with
  | nil =>
    intro st d hd hb hdg _
    exact ⟨d, hd, hb, hdg⟩
  | cons p pt ih =>
    intro st d hd hb hdg hbelow
    have hpips : |p - b| / pip_value dg < cfg.small_threshold :=
      hbelow p (List.mem_cons_self _ _)
    have hnf : level_decision cfg (p - b) (|p - b| / pip_value d.digits) = none := by
      rw [hdg]
      exact level_decision_below_small cfg (p - b) _ h2 h3 hpips
    have hstep := update_price_no_fire cfg st symbol d b p w hw hd hb hnf
    simp only [observe_seq, hstep]
    exact ih (setSym st symbol { d with last_price := some p })
      { d with last_price := some p }
      (dictGet_setSym_self st symbol d _ hd) hb hdg
      (fun q hq => hbelow q (List.mem_cons_of_mem _ hq))

/-! ### C3: counterexample and amended frame theorem -/

/-- A configuration with thresholds out of ascending order: the medium
threshold sits below the small one. -/
def cfgOOO : Config := { defaultConfig with medium_threshold := 2 }

/-- C3 counterexample: with out-of-order thresholds (medium 2 < small 5)
an observation whose pips (3) stay strictly below the small threshold
still fires the Medium tier and mutates `base_price`, contradicting the
claim that sub-small movement never mutates the baseline. -/
theorem update_price_below_small_cex :
    |(15003 : ℚ) / 100 - 150| / pip_value 3 < cfgOOO.small_threshold ∧
    dictGet stW "USDJPY" = some dW ∧ dW.base_price = some 150 ∧
    dictGet (update_price cfgOOO stW "USDJPY" (15003 / 100)).state "USDJPY"
        = some ⟨some (15003 / 100), some (15003 / 100), 3, "どるえん"⟩ ∧
    (15003 : ℚ) / 100 ≠ 150 := by
  have habs : |(15003 : ℚ) / 100 - 150| = 3 / 100 := by
    rw [abs_of_pos (show (0 : ℚ) < 15003 / 100 - 150 by norm_num)]
    norm_num
  have hpv : pip_value 3 = 1 / 100 := by norm_num [pip_value]
  refine ⟨?_, by decide, rfl, ?_, by norm_num⟩
  · rw [habs, hpv]
    norm_num [cfgOOO, defaultConfig]
  · have hld : level_decision cfgOOO ((15003 : ℚ) / 100 - 150)
        (|(15003 : ℚ) / 100 - 150| / pip_value dW.digits)
        = some (Tier.Medium, cfgOOO.msg_medium, "happy") := by
      rw [show dW.digits = (3 : ℤ) from rfl, habs, hpv]
      unfold level_decision
      norm_num [cfgOOO, defaultConfig]
    rw [update_price_fire cfgOOO stW "USDJPY" dW 150 (15003 / 100) ⟨3, "どるえん"⟩
      Tier.Medium cfgOOO.msg_medium "happy" (by decide) (by decide) rfl hld]
    exact dictGet_setSym_self stW "USDJPY" dW _ (by decide)

/-- C3 (amended): for every observation of a known symbol after the
first, `last_price` is set to the observed price unconditionally and
`base_price` is changed exactly when a tier fires (in which case it
becomes the observed price, so the next delta is measured against it),
entries of other symbols are untouched; and, provided the configured
thresholds satisfy small ≤ medium and small ≤ large, any sequence of
observations whose pips stay below the small threshold leaves
`base_price` unchanged. -/
theorem update_price_frame (cfg : Config) (st : SymTab) (symbol : String)
    (d : SymData) (b price : ℚ) (w : SymCfg)
    (hw : dictGet cfg.watch_symbols symbol = some w)
    (hd : dictGet st symbol = some d)
    (hb : d.base_price = some b) :
    (∃ d', dictGet (update_price cfg st symbol price).state symbol = some d' ∧
      d'.last_price = some price ∧
      d'.base_price = (if ((update_price cfg st symbol price).event).isSome
                       then some price else some b) ∧
      d'.digits = d.digits ∧ d'.jp_name = d.jp_name) ∧
    (∀ s, s ≠ symbol →
      dictGet (update_price cfg st symbol price).state s = dictGet st s) ∧
    (cfg.small_threshold ≤ cfg.medium_threshold →
     cfg.small_threshold ≤ cfg.large_threshold →
     ∀ ps : List ℚ, (∀ p ∈ ps, |p - b| / pip_value d.digits < cfg.small_threshold) →
      ∃ d', dictGet (observe_seq cfg st symbol ps) symbol = some d' ∧
        d'.base_price = some b ∧ d'.digits = d.digits) := by
  refine ⟨?_, ?_, ?_⟩
  · cases hld : level_decision cfg (price - b) (|price - b| / pip_value d.digits) with
    | none =>
      rw [update_price_no_fire cfg st symbol d b price w hw hd hb hld]
      exact ⟨{ d with last_price := some price },
        dictGet_setSym_self st symbol d _ hd, rfl, by simp [hb], rfl, rfl⟩
    | some v =>
      obtain ⟨t, msg, emo⟩ := v
      rw [update_price_fire cfg st symbol d b price w t msg emo hw hd hb hld]
      exact ⟨{ d with base_price := some price, last_price := some price },
        dictGet_setSym_self st symbol d _ hd, rfl, by simp, rfl, rfl⟩
  · intro s hs
    cases hld : level_decision cfg (price - b) (|price - b| / pip_value d.digits) with
    | none =>
      rw [update_price_no_fire cfg st symbol d b price w hw hd hb hld]
      exact dictGet_setSym_ne st symbol s _ hs
    | some v =>
      obtain ⟨t, msg, emo⟩ := v
      rw [update_price_fire cfg st symbol d b price w t msg emo hw hd hb hld]
      exact dictGet_setSym_ne st symbol s _ hs
  · intro h2 h3 ps hbelow
    exact observe_seq_below_small cfg symbol b d.digits w hw h2 h3 ps st d hd hb rfl hbelow

theorem update_price_frame_witness :
    ∃ d', dictGet (update_price defaultConfig stW "USDJPY" (7503 / 50)).state "USDJPY"
        = some d' ∧ d'.last_price = some (7503 / 50) :=
  ⟨_, ((update_price_frame defaultConfig stW "USDJPY" dW 150 (7503 / 50)
      ⟨3, "どるえん"⟩ (by decide) (by decide) rfl).1).choose_spec.1,
    ((update_price_frame defaultConfig stW "USDJPY" dW 150 (7503 / 50)
      ⟨3, "どるえん"⟩ (by decide) (by decide) rfl).1).choose_spec.2.1⟩

/-! ### C10: tracker-state invariant -/

/-- The per-symbol invariant: `base_price` is unset exactly when
`last_price` is. -/
def InvOk (st : SymTab) : Prop :=
  ∀ p ∈ st, ((p.2).base_price = none ↔ (p.2).last_price = none)

theorem update_price_state_cases (cfg : Config) (st : SymTab) (symbol : String)
    (price : ℚ) :
    (update_price cfg st symbol price).state = st ∨
    ∃ d', (update_price cfg st symbol price).state = setSym st symbol d' ∧
      (d').base_price.isSome = true ∧ (d').last_price.isSome = true := by
  cases hw : dictGet cfg.watch_symbols symbol with
  | none =>
    left
    rw [update_price_unwatched cfg st symbol price hw]
  | some w =>
    cases hd : dictGet st symbol with
    | none =>
      left
      simp [update_price, hw, hd]
    | some d =>
      cases hb : d.base_price with
      | none =>
        right
        refine ⟨{ d with base_price := some price, last_price := some price }, ?_, rfl, rfl⟩
        rw [update_price_first cfg st symbol d price w hw hd hb]
      | some b =>
        cases hld : level_decision cfg (price - b) (|price - b| / pip_value d.digits) with
        | none =>
          right
          refine ⟨{ d with last_price := some price }, ?_, ?_, rfl⟩
          · rw [update_price_no_fire cfg st symbol d b price w hw hd hb hld]
          · simp [hb]
        | some v =>
          obtain ⟨t, msg, emo⟩ := v
          right
          refine ⟨{ d with base_price := some price, last_price := some price }, ?_, rfl, rfl⟩
          rw [update_price_fire cfg st symbol d b price w t msg emo hw hd hb hld]

theorem invOk_setSym (st : SymTab) (symbol : String) (d' : SymData)
    (h : InvOk st) (hb : (d').base_price.isSome = true)
    (hl : (d').last_price.isSome = true) :
    InvOk (setSym st symbol d') := by
  intro p hp
  rcases mem_setSym st symbol d' p hp with h2 | h2
  · rw [h2]
    constructor <;> intro hx
    · rw [hx] at hb
      simp at hb
    · rw [hx] at hl
      simp at hl
  · exact h p h2

/-- C10: the tracker-state invariant holds at construction, is preserved
by every `update_price` call, and once a symbol has observed a first
price both of its fields stay set through any further run of ticks. -/
theorem tracker_state_invariant :
    (∀ cfg, InvOk (monitor_init cfg)) ∧
    (∀ cfg st symbol price, InvOk st → InvOk (update_price cfg st symbol price).state) ∧
    (∀ cfg (st : SymTab) (obs : List (String × ℚ)) (s : String) (d : SymData),
      dictGet st s = some d →
      d.base_price.isSome = true → d.last_price.isSome = true →
      ∃ d', dictGet (observe_run cfg st obs) s = some d' ∧
        (d').base_price.isSome = true ∧ (d').last_price.isSome = true) := by
  refine ⟨?_, ?_, ?_⟩
  · intro cfg p hp
    simp only [monitor_init, List.mem_map] at hp
    obtain ⟨q, _, rfl⟩ := hp
    simp
  · intro cfg st symbol price h
    rcases update_price_state_cases cfg st symbol price with hc | ⟨d', hc, hbb, hll⟩
    · rw [hc]
      exact h
    · rw [hc]
      exact invOk_setSym st symbol d' h hbb hll
  · intro cfg st obs
    induction obs generalizing st with
    | nil =>
      intro s d hd hb hl
      exact ⟨d, hd, hb, hl⟩
    | cons q rest ih =>
      obtain ⟨sy, pr⟩ := q
      intro s d hd hb hl
      have hstep : ∃ d', dictGet (update_price cfg st sy pr).state s = some d' ∧
          (d').base_price.isSome = true ∧ (d').last_price.isSome = true := by
        rcases update_price_state_cases cfg st sy pr with hc | ⟨d2, hc, hbb, hll⟩
        · exact ⟨d, by rw [hc]; exact hd, hb, hl⟩
        · by_cases hs : s = sy
          · subst hs
            exact ⟨d2, by rw [hc]; exact dictGet_setSym_self st s d d2 hd, hbb, hll⟩
          · exact ⟨d, by rw [hc, dictGet_setSym_ne st sy s d2 hs]; exact hd, hb, hl⟩
      obtain ⟨d', hd', hb', hl'⟩ := hstep
      simp only [observe_run]
      exact ih (update_price cfg st sy pr).state s d' hd' hb' hl'

theorem tracker_state_invariant_witness :
    InvOk (update_price defaultConfig (monitor_init defaultConfig) "USDJPY" 150).state :=
  tracker_state_invariant.2.1 defaultConfig (monitor_init defaultConfig) "USDJPY" 150
    (tracker_state_invariant.1 defaultConfig)

/-! ### C5: broadcast prunes exactly the dead subscribers, after the sweep -/

theorem sweep_eq (l : List Client) :
    sweep l = (l.filter (fun c => !c.closed), l.filter (fun c => c.closed)) := by
  induction l with
  | nil => rfl
  | cons c t ih =>
    cases hc : c.closed <;> simp [sweep, ih, List.filter_cons, hc]

theorem foldl_removeClient_cons (ds : List Client) (a : Client) (s : List Client)
    (ha : a ∉ ds) :
    ds.foldl removeClient (a :: s) = a :: ds.foldl removeClient s := by
  induction ds generalizing s with
  | nil => rfl
  | cons d dt ih =>
    have hne : a ≠ d := fun h => ha (h ▸ List.mem_cons_self d dt)
    have ha' : a ∉ dt := fun h => ha (List.mem_cons_of_mem _ h)
    simp only [List.foldl_cons]
    rw [show removeClient (a :: s) d = a :: removeClient s d from by
      simp [removeClient, hne]]
    exact ih _ ha'

theorem foldl_remove_filter (l : List Client) (p : Client → Bool) (h : l.Nodup) :
    (l.filter p).foldl removeClient l = l.filter (fun c => !p c) := by
  induction l with
  | nil => rfl
  | cons a t ih =>
    have hnd := List.nodup_cons.mp h
    cases hp : p a
    · have hfilter : (a :: t).filter p = t.filter p := by
        simp [List.filter_cons, hp]
      have hnotin : a ∉ t.filter p := fun hmem => hnd.1 (List.mem_of_mem_filter hmem)
      rw [hfilter, foldl_removeClient_cons _ _ _ hnotin, ih hnd.2]
      simp [List.filter_cons, hp]
    · have hfilter : (a :: t).filter p = a :: t.filter p := by
        simp [List.filter_cons, hp]
      rw [hfilter]
      simp only [List.foldl_cons]
      rw [show removeClient (a :: t) a = t from by simp [removeClient]]
      rw [ih hnd.2]
      simp [List.filter_cons, hp]

theorem length_filter_add (l : List Client) (p : Client → Bool) :
    (l.filter p).length + (l.filter (fun c => !p c)).length = l.length := by
  induction l with
  | nil => rfl
  | cons a t ih =>
    cases hp : p a <;> simp [List.filter_cons, hp] <;> omega

/-- C5: broadcasting over a pool in which exactly one already-closed
subscriber sits still delivers the message to all other subscribers
(the sweep never aborts), and only after the sweep is the dead
subscriber discarded, leaving a pool of exactly N - 1 members. -/
theorem broadcast_prunes_one_closed (pool : List Client) (msg : String)
    (hnd : pool.Nodup)
    (h1 : (pool.filter (fun c => c.closed)).length = 1) :
    (broadcast pool msg).sent = pool.filter (fun c => !c.closed) ∧
    (broadcast pool msg).sent.length + 1 = pool.length ∧
    (broadcast pool msg).pool = pool.filter (fun c => !c.closed) ∧
    (broadcast pool msg).pool.length + 1 = pool.length := by
  have hne : pool.isEmpty = false := by
    cases pool with
    | nil => simp at h1
    | cons a t => rfl
  have hs := sweep_eq pool
  have hlen := length_filter_add pool (fun c => c.closed)
  have hsent : (broadcast pool msg).sent = pool.filter (fun c => !c.closed) := by
    simp [broadcast, hne, hs]
  have hpool : (broadcast pool msg).pool = pool.filter (fun c => !c.closed) := by
    simp only [broadcast, hne, Bool.false_eq_true, if_false, hs]
    exact foldl_remove_filter pool _ hnd
  refine ⟨hsent, ?_, hpool, ?_⟩
  · rw [hsent]
    omega
  · rw [hpool]
    omega

/-- A pool of three subscribers of which exactly the middle one is
already closed. -/
def poolW : List Client := [⟨0, false⟩, ⟨1, true⟩, ⟨2, false⟩]

theorem broadcast_prunes_one_closed_witness :
    (broadcast poolW "alert").sent = [⟨0, false⟩, ⟨2, false⟩] ∧
    (broadcast poolW "alert").pool = [⟨0, false⟩, ⟨2, false⟩] := by
  have h := broadcast_prunes_one_closed poolW "alert" (by decide) (by decide)
  exact ⟨by rw [h.1]; decide, by rw [h.2.2.1]; decide⟩

/-! ### C4: malformed numeric string in update_config -/

/-- The request of the spec scenario: `small_threshold` set to the
string "abc". -/
def updAbc : ConfigUpdateMsg :=
  ⟨none, some (JVal.str "abc"), none, none, none, none, none⟩

/-- C4 counterexample: on the request whose only field is
`small_threshold = "abc"`, the handler does not reply
`config_updated / success false` without crashing; in fact it sends no
reply at all and the ValueError escapes the handler. -/
theorem malformed_config_response_cex :
    ¬ ((dashboard_update_config updAbc defaultConfig none).response
          = some ⟨"config_updated", false⟩ ∧
       (dashboard_update_config updAbc defaultConfig none).crashed = false) := by
  decide

/-- C4 (amended): a config update whose only field holds a malformed
numeric string makes `float` raise ValueError, which the message loop
(catching only json.JSONDecodeError) does not handle: no
`config_updated` response is sent, the handler crashes, and both the
in-memory configuration and the persisted file are left unchanged. -/
theorem malformed_config_update_behavior (cfg : Config) (file : Option ConfigFile)
    (s : String) (hs : parseDecimal s = none) :
    dashboard_update_config ⟨none, some (JVal.str s), none, none, none, none, none⟩
        cfg file
      = ⟨cfg, file, none, true⟩ := by
  have happ : apply_config_fields ⟨none, some (JVal.str s), none, none, none, none, none⟩
      cfg = Except.error cfg := by
    simp only [apply_config_fields, applyNumField, pyFloat, hs]
    rfl
  simp [dashboard_update_config, handle_config_update, happ]

theorem malformed_config_update_behavior_witness :
    dashboard_update_config updAbc defaultConfig none
      = ⟨defaultConfig, none, none, true⟩ :=
  malformed_config_update_behavior defaultConfig none "abc" (by decide)

/-! ### C6: configuration round-trip through the persisted file -/

/-- The sparse update of the round-trip scenario: only
`small_threshold`, set to the number 7.5. -/
def upd75 : ConfigUpdateMsg :=
  ⟨none, some (JVal.num (15 / 2)), none, none, none, none, none⟩

theorem merge_watch_eq (l m : List (String × SymCfg))
    (h : m.map Prod.fst = l.map Prod.fst)
    (hnd : (l.map Prod.fst).Nodup) :
    l.map (fun p => (p.1, (dictGet m p.1).getD p.2)) = m := by
  induction l generalizing m with
  | nil =>
    cases m with
    | nil => rfl
    | cons q mt => simp at h
  | cons a lt ih =>
    obtain ⟨k, v⟩ := a
    cases m with
    | nil => simp at h
    | cons q mt =>
      obtain ⟨k2, w⟩ := q
      simp only [List.map_cons, List.cons.injEq] at h
      obtain ⟨hk, hrest⟩ := h
      subst hk
      rw [List.map_cons] at hnd
      have hnd' := List.nodup_cons.mp hnd
      have hhead : dictGet ((k2, w) :: mt) k2 = some w := by simp [dictGet]
      have htail : lt.map (fun p => (p.1, (dictGet ((k2, w) :: mt) p.1).getD p.2))
          = lt.map (fun p => (p.1, (dictGet mt p.1).getD p.2)) := by
        apply List.map_congr_left
        intro p hp
        have hpk : ¬p.1 = k2 := by
          intro heq
          have hm : p.1 ∈ lt.map Prod.fst := List.mem_map_of_mem Prod.fst hp
          rw [heq] at hm
          exact hnd'.1 hm
        simp [dictGet, hpk]
      simp only [List.map_cons, hhead, Option.getD_some, htail]
      rw [ih mt hrest hnd'.2]

/-- C6: updating a configuration with the sparse request
`small_threshold = 7.5`, persisting it, and performing a fresh load
over the defaults yields exactly the configuration with
`small_threshold = 7.5` and every other field at its pre-update value
(the watch list of any reachable configuration carries exactly the
default symbol identifiers, which the hypothesis records). -/
theorem config_roundtrip_small_threshold (c : Config) (file : Option ConfigFile)
    (hkeys : c.watch_symbols.map Prod.fst = defaultConfig.watch_symbols.map Prod.fst) :
    handle_config_update upd75 c file
      = Except.ok ({ c with small_threshold := 15 / 2 },
          some (save_config_to_file { c with small_threshold := 15 / 2 })) ∧
    load_config_from_file
        (some (save_config_to_file { c with small_threshold := 15 / 2 }))
        defaultConfig
      = { c with small_threshold := 15 / 2 } := by
  constructor
  · rfl
  · obtain ⟨ws, ui, sm, md, lg, m1, m2, m3⟩ := c
    dsimp at hkeys
    simp [load_config_from_file, save_config_to_file, Config.mk.injEq]
    exact merge_watch_eq defaultConfig.watch_symbols ws hkeys (by decide)

theorem config_roundtrip_small_threshold_witness :
    load_config_from_file
        (some (save_config_to_file { defaultConfig with small_threshold := 15 / 2 }))
        defaultConfig
      = { defaultConfig with small_threshold := 15 / 2 } :=
  (config_roundtrip_small_threshold defaultConfig none rfl).2
